import Mathlib

/-!
Verification of the transactional-outbox subsystem of `dallinger/db.py`.

A shallow embedding of the three pieces of the module that the claims are
about:

* `sessions_scope` — the context manager providing a transactional scope:
  on normal completion it optionally commits; on an error raised inside the
  scoped work it logs the error, rolls the session back and re-raises; the
  `finally` clause removes (releases) the session on every exit path.
* `serialized` — the decorator that runs a unit of work inside a
  commit-on-success `sessions_scope` under SERIALIZABLE isolation, retrying
  on `OperationalError`s whose `orig` is a `TransactionRollbackError`, with
  an attempt counter starting at 100.
* the outbox event listeners — `after_begin` and `after_soft_rollback`
  reset `session.info` key `outbox` to the empty list, `queue_message`
  appends a `(channel, message)` pair (lazily creating the list), and
  `after_commit` publishes every pair of the outbox, in order, to redis.

Python exceptions are modelled by the type `PyErr`, fallible operations by
`Except PyErr`; the session-level side effects (commit, rollback, remove,
`logger.exception`) are recorded as an ordered trace of `Op`s, and the
fallibility of the real `commit()` / `rollback()` calls is made explicit by
`Option PyErr` oracles (`none` = the call succeeds).
-/

namespace DallingerDB

/-- Python exceptions, as classified by `dallinger.db`:
`operational b n` models a `sqlalchemy.exc.OperationalError` whose
`orig` attribute is a `psycopg2 TransactionRollbackError` exactly when
`b = true`; `other n` models every exception of any other class (domain
errors in particular).  The `Nat` field distinguishes exception instances. -/
inductive PyErr where
  | operational (origIsTxnRollback : Bool) (id : Nat)
  | other (id : Nat)
deriving DecidableEq

/-- Session-level operations performed by `sessions_scope`, recorded in
execution order: the `local_session.commit()` call, the
`local_session.rollback()` call, the `local_session.remove()` call of the
`finally` clause, and the `logger.exception(...)` record of a caught
error.  (`logger.debug` calls are not observable effects and are not
recorded.) -/
inductive Op where
  | commit
  | rollback
  | remove
  | logException (e : PyErr)
deriving DecidableEq

/-- Number of `remove` operations in a trace. -/
def countRemove : List Op → Nat
  | [] => 0
  | Op.commit :: rest => countRemove rest
  | Op.rollback :: rest => countRemove rest
  | Op.remove :: rest => countRemove rest + 1
  | Op.logException _ :: rest => countRemove rest

/-- `dallinger.db.sessions_scope(local_session, commit=False)`.

`work` is the outcome of the code run under `yield local_session`
(`Except.error e` models that the work raised `e`);  `commit` is the
keyword argument; `commitRes` / `rollbackRes` say whether the
`local_session.commit()` / `local_session.rollback()` calls themselves
raise (`some e`) or succeed (`none`).  The result is the value returned
to the caller (or the exception propagated to it) together with the
ordered trace of session operations the scope performed:

* work succeeds, `commit=False`: the transaction is left open, the
  `finally` clause removes the session;
* work succeeds, `commit=True`: `commit()` is called; if it raises, the
  `except` clause logs the commit error, rolls back, and re-raises it;
* work raises `e`: the `except` clause logs `e` first (the source comment:
  the exception is logged before re-raising, in case the rollback also
  fails), calls `rollback()`, and re-raises `e` — unless the `rollback()`
  call itself raises, in which case *that* exception is the one that
  leaves the `except` block;
* in every case the `finally` clause runs `remove()` last, before control
  leaves the scope. -/
def sessions_scope {α : Type} (work : Except PyErr α) (commit : Bool)
    (commitRes rollbackRes : Option PyErr) : Except PyErr α × List Op :=
  match work with
  | Except.ok a =>
    if commit then
      match commitRes with
      | none => (Except.ok a, [Op.commit, Op.remove])
      | some ce =>
        match rollbackRes with
        | none =>
          (Except.error ce, [Op.commit, Op.logException ce, Op.rollback, Op.remove])
        | some re =>
          (Except.error re, [Op.commit, Op.logException ce, Op.rollback, Op.remove])
    else (Except.ok a, [Op.remove])
  | Except.error e =>
    match rollbackRes with
    | none => (Except.error e, [Op.logException e, Op.rollback, Op.remove])
    | some re => (Except.error re, [Op.logException e, Op.rollback, Op.remove])

/-- C6: for every error raised inside the work executed under
`sessions_scope` (with the rollback call itself succeeding), the session
rollback is performed — the trace is exactly log, rollback, remove, in
that order, so the rollback happens before control (and the error)
leaves the scope — and the propagated error is the very error raised by
the work, for either value of the `commit` flag. -/
theorem claim_C6_rollback_before_error_propagates {α : Type} (e : PyErr)
    (commit : Bool) (commitRes : Option PyErr) :
    sessions_scope (Except.error e : Except PyErr α) commit commitRes none =
      (Except.error e, [Op.logException e, Op.rollback, Op.remove]) := by
  cases commit <;> rfl

/-- C7, as stated, is false on the code: when the work raises and the
rollback itself also fails, the error that propagates is the rollback
failure, not the original error.  Concretely, with original error
`PyErr.other 0` and rollback failure `PyErr.other 1`, the scope
propagates `PyErr.other 1`. -/
theorem claim_C7_counterexample :
    (sessions_scope (Except.error (PyErr.other 0) : Except PyErr Unit)
        false none (some (PyErr.other 1))).1 =
      Except.error (PyErr.other 1) ∧
    (Except.error (PyErr.other 1) : Except PyErr Unit) ≠
      Except.error (PyErr.other 0) := by
  exact ⟨rfl, by simp⟩

/-- C7 amended: if the work raises `e` and the subsequent rollback fails
with `re`, the rollback failure `re` is what propagates to the caller;
the original error `e` is only recorded (logged) — it is written to the
trace before the rollback is even attempted — and the session is still
removed. -/
theorem claim_C7_rollback_failure_propagates {α : Type} (e re : PyErr)
    (commit : Bool) (commitRes : Option PyErr) :
    sessions_scope (Except.error e : Except PyErr α) commit commitRes (some re) =
      (Except.error re, [Op.logException e, Op.rollback, Op.remove]) := by
  cases commit <;> rfl

/-- C8: on every exit path of `sessions_scope` — normal completion without
commit, successful commit, failed commit, error raised by the work, or
failure of the rollback itself — the session is removed exactly once, and
the removal is the last operation performed before control leaves the
scope. -/
theorem claim_C8_remove_always_exactly_once {α : Type} (work : Except PyErr α)
    (commit : Bool) (commitRes rollbackRes : Option PyErr) :
    countRemove (sessions_scope work commit commitRes rollbackRes).2 = 1 ∧
    (sessions_scope work commit commitRes rollbackRes).2.getLast? = some Op.remove := by
  rcases work with a | e <;> cases commit <;>
    rcases commitRes with _ | ce <;> rcases rollbackRes with _ | re <;>
    exact ⟨rfl, rfl⟩

/-- The possible outcomes of the wrapper built by `serialized`:
`value a` — some attempt returned `a`; `raised e` — an exception
propagated out of the wrapper (either re-raised by the `except` clause or
not caught by it at all); `exhausted` — the
`Exception('Could not commit serialized transaction after 100 attempts.')`
of the inner `else` branch; `returnedNone` — the `while` loop ran out of
attempts and the wrapper fell off its end, implicitly returning `None`. -/
inductive SOutcome (α : Type) where
  | value (a : α)
  | raised (e : PyErr)
  | exhausted
  | returnedNone
deriving DecidableEq

/-- What a run of the `serialized` wrapper produces: its outcome, the
number of times the wrapped unit of work was invoked, and the
concatenated trace of session operations of all attempts. -/
structure SerializedResult (α : Type) where
  outcome : SOutcome α
  invocations : Nat
  ops : List Op
deriving DecidableEq

/-- The `while attempts > 0` loop of the wrapper built by
`dallinger.db.serialized`.

`work i` is the outcome of the `i`-th invocation of the wrapped function
(invocations are numbered from 0); `cr i` / `rr i` say whether the
`commit()` / `rollback()` calls of the `i`-th attempt's `sessions_scope`
raise.  Each iteration of the loop runs `func` inside
`sessions_scope(session, commit=True)` (the `session.connection(...)`
isolation-level setup is not fallible in the model).  A raised
`OperationalError` whose `orig` is a `TransactionRollbackError` hits the
`if attempts > 0` branch — the guard re-tests the `while` condition that
already held, so it is necessarily true — and the loop continues with
`attempts` decremented; any other exception propagates.  When `attempts`
reaches 0 the `while` condition fails and the wrapper returns `None`. -/
def serializedLoop {α : Type} (work : Nat → Except PyErr α)
    (cr rr : Nat → Option PyErr) :
    Nat → Nat → List Op → SerializedResult α
  | 0, i, acc => ⟨SOutcome.returnedNone, i, acc⟩
  | Nat.succ a, i, acc =>
    let step := sessions_scope (work i) true (cr i) (rr i)
    match step.1 with
    | Except.ok v => ⟨SOutcome.value v, i + 1, acc ++ step.2⟩
    | Except.error e =>
      match e with
      | PyErr.operational origIsTxnRollback _ =>
        if origIsTxnRollback then
          if a + 1 > 0 then
            serializedLoop work cr rr a (i + 1) (acc ++ step.2)
          else ⟨SOutcome.exhausted, i + 1, acc ++ step.2⟩
        else ⟨SOutcome.raised e, i + 1, acc ++ step.2⟩
      | PyErr.other _ => ⟨SOutcome.raised e, i + 1, acc ++ step.2⟩

/-- `dallinger.db.serialized(func)`: the wrapper starts with
`attempts = 100` and no work invoked yet. -/
def serialized {α : Type} (work : Nat → Except PyErr α)
    (cr rr : Nat → Option PyErr) : SerializedResult α :=
  serializedLoop work cr rr 100 0 []

/-- A unit of work used to exercise the exhaustion path: every invocation
raises an `OperationalError` whose `orig` is a `TransactionRollbackError`. -/
def alwaysConflict : Nat → Except PyErr Nat :=
  fun _ => Except.error (PyErr.operational true 0)

/-- The oracle under which every session-level `commit()` and
`rollback()` call succeeds. -/
def allOk : Nat → Option PyErr :=
  fun _ => none

/-- The error classification of the wrapper's conflict handler: an
exception is absorbed by the retry loop exactly when it is an
`OperationalError` whose `orig` is a `TransactionRollbackError`. -/
def isConflict : PyErr → Bool
  | PyErr.operational origIsTxnRollback _ => origIsTxnRollback
  | PyErr.other _ => false

/-- The dead guard of the conflict handler: inside the loop body
`attempts` has the form `a + 1`, so `attempts > 0` holds. -/
theorem if_succ_pos {β : Type} (a : Nat) (x y : β) :
    (if a + 1 > 0 then x else y) = x :=
  if_pos (Nat.succ_pos a)

/-- One loop iteration whose work succeeds and whose commit succeeds
returns the work's value. -/
theorem serializedLoop_step_ok {α : Type} (work : Nat → Except PyErr α)
    (cr rr : Nat → Option PyErr) (a i : Nat) (acc : List Op) (v : α)
    (hw : work i = Except.ok v) (hc : cr i = none) :
    serializedLoop work cr rr (a + 1) i acc =
      ⟨SOutcome.value v, i + 1, acc ++ [Op.commit, Op.remove]⟩ := by
  rw [serializedLoop]
  simp [hw, hc, sessions_scope]

/-- One loop iteration whose work raises a serialization conflict (and
whose rollback succeeds) decrements the attempt counter and loops. -/
theorem serializedLoop_step_conflict {α : Type} (work : Nat → Except PyErr α)
    (cr rr : Nat → Option PyErr) (a i : Nat) (acc : List Op) (n : Nat)
    (hw : work i = Except.error (PyErr.operational true n)) (hr : rr i = none) :
    serializedLoop work cr rr (a + 1) i acc =
      serializedLoop work cr rr a (i + 1)
        (acc ++ [Op.logException (PyErr.operational true n), Op.rollback, Op.remove]) := by
  rw [serializedLoop]
  simp [hw, hr, sessions_scope, if_succ_pos]

/-- One loop iteration whose work raises a non-conflict error (and whose
rollback succeeds) propagates that error. -/
theorem serializedLoop_step_raise {α : Type} (work : Nat → Except PyErr α)
    (cr rr : Nat → Option PyErr) (a i : Nat) (acc : List Op) (e : PyErr)
    (hw : work i = Except.error e) (hnc : isConflict e = false) (hr : rr i = none) :
    serializedLoop work cr rr (a + 1) i acc =
      ⟨SOutcome.raised e, i + 1,
        acc ++ [Op.logException e, Op.rollback, Op.remove]⟩ := by
  rw [serializedLoop]
  rcases e with b | n
  · cases b
    · simp [hw, hr, sessions_scope]
    · simp [isConflict] at hnc
  · simp [hw, hr, sessions_scope]

/-- If every invocation of the work raises a serialization conflict and
every rollback succeeds, the loop consumes all its attempts, invokes the
work once per attempt, and falls through to `None`. -/
theorem serializedLoop_allConflict {α : Type} (work : Nat → Except PyErr α)
    (cr rr : Nat → Option PyErr)
    (hw : ∀ j, ∃ n, work j = Except.error (PyErr.operational true n))
    (hr : ∀ j, rr j = none) :
    ∀ a i acc, (serializedLoop work cr rr a i acc).outcome = SOutcome.returnedNone ∧
      (serializedLoop work cr rr a i acc).invocations = i + a := by
  intro a
  induction a with
  | zero => intro i acc; exact ⟨rfl, rfl⟩
  | succ a ih =>
    intro i acc
    obtain ⟨n, hn⟩ := hw i
    rw [serializedLoop_step_conflict work cr rr a i acc n hn (hr i)]
    have h := ih (i + 1) (acc ++ [Op.logException (PyErr.operational true n),
      Op.rollback, Op.remove])
    exact ⟨h.1, by rw [h.2]; omega⟩

/-- The inner `else` branch raising the exhaustion `Exception` is behind
the guard `attempts > 0`, which re-tests the condition of the enclosing
`while attempts > 0`; the loop therefore never produces `exhausted`. -/
theorem serializedLoop_never_exhausted {α : Type} (work : Nat → Except PyErr α)
    (cr rr : Nat → Option PyErr) :
    ∀ a i acc, (serializedLoop work cr rr a i acc).outcome ≠ SOutcome.exhausted := by
  intro a
  induction a with
  | zero => intro i acc; simp [serializedLoop]
  | succ a ih =>
    intro i acc
    rw [serializedLoop]
    rcases h1 : (sessions_scope (work i) true (cr i) (rr i)).1 with e | v
    · rcases e with b | n
      · cases b
        · simp [h1]
        · simp only [h1, if_pos rfl, if_succ_pos]
          exact ih (i + 1) _
      · simp [h1]
    · simp [h1]

/-- If the work raises a serialization conflict on the `k` invocations
numbered `i, …, i + k - 1` (with succeeding rollbacks) and then succeeds
at invocation `i + k` (with a succeeding commit), and more than `k`
attempts remain, the loop returns that success after `k + 1` further
invocations. -/
theorem serializedLoop_conflicts_then_ok {α : Type} (work : Nat → Except PyErr α)
    (cr rr : Nat → Option PyErr) (v : α) :
    ∀ k a i acc, k < a →
    (∀ j, j < k → ∃ n, work (i + j) = Except.error (PyErr.operational true n)) →
    (∀ j, j < k → rr (i + j) = none) →
    work (i + k) = Except.ok v → cr (i + k) = none →
    (serializedLoop work cr rr a i acc).outcome = SOutcome.value v ∧
    (serializedLoop work cr rr a i acc).invocations = i + (k + 1) := by
  intro k
  induction k with
  | zero =>
    intro a i acc ha _ _ hok hc
    obtain ⟨b, rfl⟩ : ∃ b, a = b + 1 := ⟨a - 1, by omega⟩
    rw [serializedLoop_step_ok work cr rr b i acc v (by simpa using hok)
      (by simpa using hc)]
    exact ⟨rfl, rfl⟩
  | succ k ih =>
    intro a i acc ha hconf hrr hok hc
    obtain ⟨b, rfl⟩ : ∃ b, a = b + 1 := ⟨a - 1, by omega⟩
    obtain ⟨n, hn⟩ := hconf 0 (Nat.succ_pos k)
    rw [serializedLoop_step_conflict work cr rr b i acc n (by simpa using hn)
      (by simpa using hrr 0 (Nat.succ_pos k))]
    have hconf2 : ∀ j, j < k → ∃ n, work (i + 1 + j) =
        Except.error (PyErr.operational true n) := by
      intro j hj
      have h2 := hconf (j + 1) (by omega)
      rwa [show i + (j + 1) = i + 1 + j by omega] at h2
    have hrr2 : ∀ j, j < k → rr (i + 1 + j) = none := by
      intro j hj
      have h2 := hrr (j + 1) (by omega)
      rwa [show i + (j + 1) = i + 1 + j by omega] at h2
    have hok2 : work (i + 1 + k) = Except.ok v := by
      rwa [show i + (k + 1) = i + 1 + k by omega] at hok
    have hc2 : cr (i + 1 + k) = none := by
      rwa [show i + (k + 1) = i + 1 + k by omega] at hc
    have h := ih b (i + 1)
      (acc ++ [Op.logException (PyErr.operational true n), Op.rollback, Op.remove])
      (by omega) hconf2 hrr2 hok2 hc2
    exact ⟨h.1, by rw [h.2]; omega⟩

/-- C4: for every `k < 100`, a unit of work that raises a serialization
conflict on its first `k` invocations (each failed attempt's rollback
succeeding) and succeeds on invocation `k + 1` (its commit succeeding)
makes the wrapper return that success result after exactly `k + 1`
invocations of the work. -/
theorem claim_C4_k_conflicts_then_success {α : Type}
    (work : Nat → Except PyErr α) (cr rr : Nat → Option PyErr) (k : Nat) (v : α)
    (hk : k < 100)
    (hconf : ∀ j, j < k → ∃ n, work j = Except.error (PyErr.operational true n))
    (hrr : ∀ j, j < k → rr j = none)
    (hok : work k = Except.ok v) (hc : cr k = none) :
    (serialized work cr rr).outcome = SOutcome.value v ∧
    (serialized work cr rr).invocations = k + 1 := by
  have h := serializedLoop_conflicts_then_ok work cr rr v k 100 0 [] hk
    (by simpa using hconf) (by simpa using hrr) (by simpa using hok)
    (by simpa using hc)
  exact ⟨h.1, by rw [show (serialized work cr rr).invocations =
    (serializedLoop work cr rr 100 0 []).invocations from rfl, h.2]; omega⟩

/-- A unit of work that raises a serialization conflict on invocations 0
and 1 and returns 42 from invocation 2 on. -/
def twoConflictsThenOk : Nat → Except PyErr Nat :=
  fun i => if i < 2 then Except.error (PyErr.operational true 0) else Except.ok 42

/-- Witness for C4 at `k = 2`: two conflicts, then success with value 42
after exactly 3 invocations. -/
theorem claim_C4_witness :
    (serialized twoConflictsThenOk allOk allOk).outcome = SOutcome.value 42 ∧
    (serialized twoConflictsThenOk allOk allOk).invocations = 3 := by
  exact claim_C4_k_conflicts_then_success twoConflictsThenOk allOk allOk 2 42
    (by omega)
    (fun j hj => ⟨0, by
      have h2 : j = 0 ∨ j = 1 := by omega
      rcases h2 with h1 | h1 <;> subst h1 <;> rfl⟩)
    (fun j hj => rfl) rfl rfl

/-- C5: an error raised by the unit of work on its first invocation that
is not a classified serialization conflict — a domain error, or an
`OperationalError` whose `orig` is not a `TransactionRollbackError` —
makes the wrapper invoke the work exactly once, perform a rollback
(the attempt's trace is log, rollback, remove), and propagate that very
error without retrying. -/
theorem claim_C5_nonconflict_propagates_without_retry {α : Type}
    (work : Nat → Except PyErr α) (cr rr : Nat → Option PyErr) (e : PyErr)
    (hw : work 0 = Except.error e) (hnc : isConflict e = false)
    (hr : rr 0 = none) :
    serialized work cr rr =
      ⟨SOutcome.raised e, 1, [Op.logException e, Op.rollback, Op.remove]⟩ := by
  have h := serializedLoop_step_raise work cr rr 99 0 [] e hw hnc hr
  simpa [serialized] using h

/-- Witness for C5 at a concrete domain error. -/
theorem claim_C5_witness :
    serialized (fun _ => Except.error (PyErr.other 7) : Nat → Except PyErr Nat)
        allOk allOk =
      ⟨SOutcome.raised (PyErr.other 7), 1,
        [Op.logException (PyErr.other 7), Op.rollback, Op.remove]⟩ := by
  exact claim_C5_nonconflict_propagates_without_retry
    (fun _ => Except.error (PyErr.other 7)) allOk allOk (PyErr.other 7) rfl rfl rfl

/-- C3, as the spec states it, fails on the code: a unit of work that
raises a serialization conflict on every invocation is indeed invoked
exactly 100 times, but the wrapper then returns `None` instead of raising
a "retry budget exhausted" error — the raise sits in a branch the guard
makes unreachable. -/
theorem claim_C3_exhaustion_returns_none :
    (serialized alwaysConflict allOk allOk).outcome = SOutcome.returnedNone ∧
    (serialized alwaysConflict allOk allOk).invocations = 100 := by
  have h := serializedLoop_allConflict alwaysConflict allOk allOk
    (fun j => ⟨0, rfl⟩) (fun j => rfl) 100 0 []
  exact ⟨h.1, h.2⟩

/-- C10: the exhaustion branch of the conflict handler is unreachable —
no run of the wrapper ever produces the
`'Could not commit serialized transaction after 100 attempts.'`
exception — and when the attempt budget is spent on conflicts the
wrapper instead terminates returning `None` without raising. -/
theorem claim_C10_exhausted_branch_unreachable {α : Type}
    (work : Nat → Except PyErr α) (cr rr : Nat → Option PyErr) :
    (serialized work cr rr).outcome ≠ SOutcome.exhausted ∧
    ((∀ j, ∃ n, work j = Except.error (PyErr.operational true n)) →
      (∀ j, rr j = none) →
      (serialized work cr rr).outcome = SOutcome.returnedNone) := by
  constructor
  · exact serializedLoop_never_exhausted work cr rr 100 0 []
  · intro hw hr
    exact (serializedLoop_allConflict work cr rr hw hr 100 0 []).1

/-- Witness for C10 at a concrete always-conflicting unit of work. -/
theorem claim_C10_witness :
    (serialized (fun _ => Except.error (PyErr.operational true 5) :
        Nat → Except PyErr Unit) allOk allOk).outcome ≠ SOutcome.exhausted ∧
    (serialized (fun _ => Except.error (PyErr.operational true 5) :
        Nat → Except PyErr Unit) allOk allOk).outcome = SOutcome.returnedNone := by
  have h := claim_C10_exhausted_branch_unreachable
    (fun _ => Except.error (PyErr.operational true 5) : Nat → Except PyErr Unit)
    allOk allOk
  exact ⟨h.1, h.2 (fun j => ⟨5, rfl⟩) (fun j => rfl)⟩

/-- The `outbox` key of `session.info`: `none` models the key being
absent from the dictionary, `some xs` models `session.info['outbox'] = xs`.
Channels have type `α` and message payloads type `β` (the Python code
passes them through untouched; in the deployed system both are strings). -/
structure SessionInfo (α β : Type) where
  outbox : Option (List (α × β))
deriving DecidableEq

/-- The `after_begin` listener: `session.info['outbox'] = []` (the
`transaction` and `connection` event arguments are unused by the body). -/
def after_begin {α β : Type} (_s : SessionInfo α β) : SessionInfo α β :=
  { outbox := some [] }

/-- The `after_soft_rollback` listener: `session.info['outbox'] = []`
(the `previous_transaction` event argument is unused by the body).
SQLAlchemy fires this listener for every session-level rollback, both a
savepoint rollback inside a live transaction and the rollback ending a
transaction. -/
def after_soft_rollback {α β : Type} (_s : SessionInfo α β) : SessionInfo α β :=
  { outbox := some [] }

/-- `queue_message(channel, message)`: lazily create
`session.info['outbox']` if the key is absent, then append the pair. -/
def queue_message {α β : Type} (channel : α) (message : β)
    (s : SessionInfo α β) : SessionInfo α β :=
  match s.outbox with
  | none => { outbox := some [(channel, message)] }
  | some xs => { outbox := some (xs ++ [(channel, message)]) }

/-- The `after_commit` listener: iterate over
`session.info.get('outbox', ())` calling `redis.publish(channel, message)`
on each pair in order.  It returns the list of publish calls made; note
that the body never writes to `session.info`, so the outbox is returned
unchanged. -/
def after_commit {α β : Type} (s : SessionInfo α β) :
    SessionInfo α β × List (α × β) :=
  (s, s.outbox.getD [])

/-- The session state transitions that drive the listeners: transaction
begin, a soft rollback inside the transaction, an enqueue via
`queue_message`, the rollback ending the transaction (explicit, or issued
by `sessions_scope` on a raised error), and a successful commit. -/
inductive SessionEvent (α β : Type) where
  | beginTx
  | softRollback
  | enqueue (channel : α) (message : β)
  | rollbackTx
  | commitTx
deriving DecidableEq

/-- Effect of one session event on the outbox, together with the publish
calls it triggers: `beginTx` fires `after_begin`, `softRollback` and
`rollbackTx` fire `after_soft_rollback`, `enqueue` runs `queue_message`,
and `commitTx` fires `after_commit` (the only event that publishes). -/
def applyEvent {α β : Type} (s : SessionInfo α β) :
    SessionEvent α β → SessionInfo α β × List (α × β)
  | SessionEvent.beginTx => (after_begin s, [])
  | SessionEvent.softRollback => (after_soft_rollback s, [])
  | SessionEvent.enqueue c m => (queue_message c m s, [])
  | SessionEvent.rollbackTx => (after_soft_rollback s, [])
  | SessionEvent.commitTx => after_commit s

/-- Run a sequence of session events, accumulating publish calls in
order. -/
def runEvents {α β : Type} :
    SessionInfo α β → List (SessionEvent α β) → SessionInfo α β × List (α × β)
  | s, [] => (s, [])
  | s, e :: rest =>
    ((runEvents (applyEvent s e).1 rest).1,
      (applyEvent s e).2 ++ (runEvents (applyEvent s e).1 rest).2)

/-- Events allowed in the body of one transaction: enqueues and soft
rollbacks (no nested begin, no terminal event). -/
def isBodyEvent {α β : Type} : SessionEvent α β → Bool
  | SessionEvent.enqueue _ _ => true
  | SessionEvent.softRollback => true
  | _ => false

/-- The contents of the outbox after processing a sequence of events
starting from outbox contents `acc`: an enqueue appends, and every reset
(begin, soft rollback, terminal rollback) clears, so the result is the
list of pairs enqueued since the last reset; a commit leaves the outbox
untouched. -/
def pendingAfter {α β : Type} :
    List (α × β) → List (SessionEvent α β) → List (α × β)
  | acc, [] => acc
  | acc, SessionEvent.enqueue c m :: rest => pendingAfter (acc ++ [(c, m)]) rest
  | _, SessionEvent.softRollback :: rest => pendingAfter [] rest
  | _, SessionEvent.beginTx :: rest => pendingAfter [] rest
  | _, SessionEvent.rollbackTx :: rest => pendingAfter [] rest
  | acc, SessionEvent.commitTx :: rest => pendingAfter acc rest

/-- All pairs enqueued by a sequence of events, in order. -/
def enqueuesOf {α β : Type} : List (SessionEvent α β) → List (α × β)
  | [] => []
  | SessionEvent.enqueue c m :: rest => (c, m) :: enqueuesOf rest
  | _ :: rest => enqueuesOf rest

/-- Running an event sequence splits across list append. -/
theorem runEvents_append {α β : Type} (xs ys : List (SessionEvent α β)) :
    ∀ s, runEvents s (xs ++ ys) =
      ((runEvents (runEvents s xs).1 ys).1,
        (runEvents s xs).2 ++ (runEvents (runEvents s xs).1 ys).2) := by
  induction xs with
  | nil => intro s; simp [runEvents]
  | cons e rest ih => intro s; simp [runEvents, ih, List.append_assoc]

/-- Running a transaction body from outbox contents `acc` publishes
nothing and leaves the outbox holding exactly the pairs enqueued since
the last reset. -/
theorem runEvents_body {α β : Type} :
    ∀ body : List (SessionEvent α β),
    (∀ e ∈ body, isBodyEvent e = true) → ∀ acc,
    runEvents ⟨some acc⟩ body = (⟨some (pendingAfter acc body)⟩, []) := by
  intro body
  induction body with
  | nil => intro _ acc; rfl
  | cons e rest ih =>
    intro h acc
    have he := h e (List.mem_cons_self e rest)
    have hrest := fun x hx => h x (List.mem_cons_of_mem e hx)
    cases e with
    | enqueue c m =>
      simp [runEvents, applyEvent, queue_message, pendingAfter, ih hrest]
    | softRollback =>
      simp [runEvents, applyEvent, after_soft_rollback, pendingAfter, ih hrest]
    | beginTx => simp [isBodyEvent] at he
    | rollbackTx => simp [isBodyEvent] at he
    | commitTx => simp [isBodyEvent] at he

/-- Without a soft rollback, the pairs pending at the end of a body are
the initial contents followed by every pair the body enqueued. -/
theorem pendingAfter_no_reset {α β : Type} :
    ∀ body : List (SessionEvent α β),
    SessionEvent.softRollback ∉ body →
    (∀ e ∈ body, isBodyEvent e = true) → ∀ acc,
    pendingAfter acc body = acc ++ enqueuesOf body := by
  intro body
  induction body with
  | nil => intro _ _ acc; simp [pendingAfter, enqueuesOf]
  | cons e rest ih =>
    intro hns h acc
    have he := h e (List.mem_cons_self e rest)
    have hns2 : SessionEvent.softRollback ∉ rest := fun hx =>
      hns (List.mem_cons_of_mem e hx)
    have hrest := fun x hx => h x (List.mem_cons_of_mem e hx)
    cases e with
    | enqueue c m =>
      simp [pendingAfter, enqueuesOf, ih hns2 hrest, List.append_assoc]
    | softRollback => exact absurd (List.mem_cons_self _ _) hns
    | beginTx => simp [isBodyEvent] at he
    | rollbackTx => simp [isBodyEvent] at he
    | commitTx => simp [isBodyEvent] at he

/-- C1: a message enqueued via `queue_message` is published iff the
transaction that owns it commits.  For any transaction body (enqueues
and soft rollbacks): if the transaction ends in rollback — explicit, or
issued by `sessions_scope` on a raised error — zero publish calls are
made for its enqueued messages; and if it ends in commit (with no
mid-transaction soft rollback discarding work) the publish calls are
exactly its enqueued pairs. -/
theorem claim_C1_publish_iff_commit {α β : Type} (s0 : SessionInfo α β)
    (body : List (SessionEvent α β))
    (hbody : ∀ e ∈ body, isBodyEvent e = true) :
    (runEvents s0 (SessionEvent.beginTx ::
        (body ++ [SessionEvent.rollbackTx]))).2 = [] ∧
    (SessionEvent.softRollback ∉ body →
      (runEvents s0 (SessionEvent.beginTx ::
          (body ++ [SessionEvent.commitTx]))).2 = enqueuesOf body) := by
  have hb := runEvents_body body hbody []
  constructor
  · simp [runEvents, applyEvent, after_begin, runEvents_append, hb,
      after_soft_rollback]
  · intro hns
    simp [runEvents, applyEvent, after_begin, runEvents_append, hb,
      after_commit, pendingAfter_no_reset body hns hbody []]

/-- Witness for C1: one enqueued pair, published under commit and not
under rollback. -/
theorem claim_C1_witness :
    (runEvents (⟨none⟩ : SessionInfo Nat Nat)
        (SessionEvent.beginTx ::
          ([SessionEvent.enqueue 1 42] ++ [SessionEvent.rollbackTx]))).2 = [] ∧
    (runEvents (⟨none⟩ : SessionInfo Nat Nat)
        (SessionEvent.beginTx ::
          ([SessionEvent.enqueue 1 42] ++ [SessionEvent.commitTx]))).2 =
      [(1, 42)] := by
  have h := claim_C1_publish_iff_commit (⟨none⟩ : SessionInfo Nat Nat)
    [SessionEvent.enqueue 1 42] (by decide)
  exact ⟨h.1, by rw [h.2 (by decide)]; rfl⟩

/-- C2: for a committing transaction, the publish calls made at commit
are exactly the pairs enqueued since the last reset — the transaction
begin or the most recent soft rollback — in enqueue order, one publish
call per enqueued pair; pairs enqueued before a soft rollback are
excluded. -/
theorem claim_C2_commit_publishes_since_last_reset {α β : Type}
    (s0 : SessionInfo α β) (body : List (SessionEvent α β))
    (hbody : ∀ e ∈ body, isBodyEvent e = true) :
    (runEvents s0 (SessionEvent.beginTx ::
        (body ++ [SessionEvent.commitTx]))).2 = pendingAfter [] body := by
  have hb := runEvents_body body hbody []
  simp [runEvents, applyEvent, after_begin, runEvents_append, hb, after_commit]

/-- Witness for C2: a pair enqueued before a soft rollback is excluded;
only the pair enqueued after it is published. -/
theorem claim_C2_witness :
    (runEvents (⟨none⟩ : SessionInfo Nat Nat)
        (SessionEvent.beginTx ::
          ([SessionEvent.enqueue 1 42, SessionEvent.softRollback,
            SessionEvent.enqueue 2 7] ++ [SessionEvent.commitTx]))).2 =
      [(2, 7)] := by
  have h := claim_C2_commit_publishes_since_last_reset
    (⟨none⟩ : SessionInfo Nat Nat)
    [SessionEvent.enqueue 1 42, SessionEvent.softRollback,
      SessionEvent.enqueue 2 7] (by decide)
  rw [h]
  rfl

/-- C9, as stated, fails on the code: `after_commit` publishes the
buffered pairs but never empties the outbox — with one buffered pair the
outbox still holds that pair after the commit listener runs, so it is
not the empty list. -/
theorem claim_C9_counterexample :
    (after_commit (⟨some [(1, 42)]⟩ : SessionInfo Nat Nat)).1.outbox =
      some [(1, 42)] ∧
    some [((1 : Nat), (42 : Nat))] ≠ some ([] : List (Nat × Nat)) := by
  exact ⟨rfl, by simp⟩

/-- C9 amended: the commit listener publishes the full ordered outbox
buffer, one call per pair, but does not empty it — the session state is
returned unchanged; the outbox is emptied only by the next transaction
begin or by a soft rollback.  (Within one transaction there is a single
commit finalization, so each buffered pair is still published exactly
once per transaction.) -/
theorem claim_C9_commit_publishes_without_clearing {α β : Type}
    (s : SessionInfo α β) :
    (after_commit s).2 = s.outbox.getD [] ∧
    (after_commit s).1 = s ∧
    (after_begin s).outbox = some [] ∧
    (after_soft_rollback s).outbox = some [] :=
  ⟨rfl, rfl, rfl, rfl⟩

end DallingerDB
